import Mathlib

/-!
Verification development for the `sechenovpro_bot` event-coordination bot.

The central object is `EventScheduler` (`src/utils/scheduler.py`): it owns the
event start time, a running flag, a current-station cursor, a name-keyed dict
of pending asyncio tasks, and arms one task per station start, one per
transition, and one for event completion.  We embed the scheduler state as a
structure, each Python method as a pure function on that structure, and the
asyncio execution environment as a small-step trace semantics (`Op`,
`stepOp`, `execTrace`, `validTraceB`): a `wake` step is the post-sleep body
of an armed task and is only valid for a task that is armed, not cancelled,
not finished, at a trace instant at or after its nominal fire instant.

The fan-out functions of `src/handlers/participant.py`
(`send_station_notification`, `broadcast_station_to_all`) are embedded with
the notification channel abstracted as a success predicate on recipients.

Time is measured in minutes as integers (all configured durations are whole
minutes); the status projection uses rationals where Python uses floats.
-/

/-! ## Configuration (`src/bot/config.py`) -/

namespace Config

def STATION_DURATION_MINUTES : Int := 6

def TRANSITION_DURATION_MINUTES : Int := 2

def TOTAL_CYCLE_MINUTES : Int := 8

def TOTAL_STATIONS : Nat := 9

/-- `Config.TOTAL_EVENT_DURATION_MINUTES` (a computed property in the source). -/
def TOTAL_EVENT_DURATION_MINUTES : Int :=
  (TOTAL_STATIONS : Int) * STATION_DURATION_MINUTES +
    ((TOTAL_STATIONS : Int) - 1) * TRANSITION_DURATION_MINUTES

end Config

/-! ## Scheduler data model (`src/utils/scheduler.py`) -/

/-- The kind of an armed timed action. -/
inductive AKind where
  | stationStart (n : Nat)
  | transitionStart (n : Nat)
  | eventComplete
deriving DecidableEq

/-- One armed asyncio task: its kind, its absolute nominal fire instant
(computed up front from the captured start instant), and the task's
cancelled/finished flags. -/
structure SAction where
  kind : AKind
  fireTime : Int
  cancelled : Bool
  done : Bool
deriving DecidableEq

/-- The mutable fields of `EventScheduler`.  `actions` lists every task ever
created (its index is the task id); `tasks` is the `self.tasks` dict mapping
task names to task ids (a dict entry is overwritten when the same name is
inserted again, which is what a fresh run does). -/
structure SchedState where
  event_start_time : Option Int
  is_running : Bool
  current_station : Nat
  actions : List SAction
  tasks : List (String × Nat)
deriving DecidableEq

def initState : SchedState := ⟨none, false, 0, [], []⟩

/-- Python dict insertion: overwrite the entry if the key is present,
append otherwise. -/
def dictInsert (d : List (String × Nat)) (k : String) (v : Nat) : List (String × Nat) :=
  match d with
  | [] => [(k, v)]
  | (p, q) :: rest => if p = k then (k, v) :: rest else (p, q) :: dictInsert rest k v

/-- `asyncio.create_task` + `self.tasks[name] = task`: a fresh live action is
appended and the dict entry for `name` is written with its id. -/
def addAction (st : SchedState) (name : String) (k : AKind) (t : Int) : SchedState :=
  { st with
    actions := st.actions ++ [⟨k, t, false, false⟩],
    tasks := dictInsert st.tasks name st.actions.length }

/-- The loop body of `_schedule_all_stations`: iterates `station_num` from 1
to `TOTAL_STATIONS`, arming a station-start task at the running clock, a
transition task at work end for non-final stations, and the completion task
at the final station's work end.  `fuel` counts the remaining iterations. -/
def scheduleFrom : Nat → Nat → Int → SchedState → SchedState
  | 0, _, _, st => st
  | fuel + 1, station_num, current_time, st =>
    let st1 := addAction st ("station_" ++ toString station_num ++ "_start")
        (AKind.stationStart station_num) current_time
    let work_end := current_time + Config.STATION_DURATION_MINUTES
    if station_num < Config.TOTAL_STATIONS then
      let st2 := addAction st1 ("station_" ++ toString station_num ++ "_transition")
          (AKind.transitionStart station_num) work_end
      scheduleFrom fuel (station_num + 1) (work_end + Config.TRANSITION_DURATION_MINUTES) st2
    else
      addAction st1 "event_completion" AKind.eventComplete work_end

/-- `_schedule_all_stations`. -/
def schedule_all_stations (st : SchedState) : SchedState :=
  match st.event_start_time with
  | none => st
  | some t0 => scheduleFrom Config.TOTAL_STATIONS 1 t0 st

/-- Callback invocations observable from outside the scheduler. -/
inductive Emit where
  | eventStarted (t : Int)
  | eventStopped
  | stationStarted (n : Nat)
  | transitionStarted (a b : Nat)
  | eventCompleted
deriving DecidableEq

/-- `EventScheduler.start_event(start_time=None)` called at wall instant
`now`: rejected with `False` when already running; otherwise records the
start instant, flips the running flag, resets the cursor, arms every task,
and returns `True` (emitting the `event_started` callback). -/
def start_event (now : Int) (start_time : Option Int) (st : SchedState) :
    Bool × SchedState × List Emit :=
  if st.is_running then (false, st, [])
  else
    let t0 := start_time.getD now
    let st1 := { st with event_start_time := some t0, is_running := true, current_station := 0 }
    let st2 := schedule_all_stations st1
    (true, st2, [Emit.eventStarted t0])

/-- Is task id `i` stored in the dict? -/
def dictHasB (d : List (String × Nat)) (i : Nat) : Bool :=
  d.any (fun p => p.2 == i)

/-- The cancellation sweep of `stop_event`: for every task id held in the
dict, a task that is not yet finished gets cancelled.  `k` is the index of
the head of the remaining list. -/
def cancelFrom (d : List (String × Nat)) : Nat → List SAction → List SAction
  | _, [] => []
  | k, a :: rest =>
    (if dictHasB d k && !a.done then { a with cancelled := true } else a) ::
      cancelFrom d (k + 1) rest

/-- `EventScheduler.stop_event`: rejected with `False` when not running;
otherwise flips the running flag off first, then cancels every unfinished
task held in the dict, clears the dict, and returns `True` (emitting the
`event_stopped` callback). -/
def stop_event (st : SchedState) : Bool × SchedState × List Emit :=
  if !st.is_running then (false, st, [])
  else
    let st1 := { st with is_running := false }
    let st2 := { st1 with actions := cancelFrom st1.tasks 0 st1.actions, tasks := [] }
    (true, st2, [Emit.eventStopped])

/-- The callback a task of the given kind invokes when it fires. -/
def callbackOf : AKind → Emit
  | AKind.stationStart n => Emit.stationStarted n
  | AKind.transitionStart n => Emit.transitionStarted n (n + 1)
  | AKind.eventComplete => Emit.eventCompleted

/-- The post-sleep body shared by `_schedule_station_start`,
`_schedule_transition_notification` and `_schedule_event_completion`: the
task marks itself finished; if the scheduler is no longer running it returns
without any callback; otherwise a station-start task writes the cursor and
emits `station_started`, a transition task emits `transition_started`
leaving the cursor unchanged, and the completion task flips the running flag
off and emits `event_completed`. -/
def fireBody (st : SchedState) (i : Nat) : SchedState × Option Emit :=
  match st.actions[i]? with
  | none => (st, none)
  | some a =>
    let st1 := { st with actions := st.actions.set i { a with done := true } }
    if !st.is_running then (st1, none)
    else
      match a.kind with
      | AKind.stationStart n =>
          ({ st1 with current_station := n }, some (Emit.stationStarted n))
      | AKind.transitionStart n =>
          (st1, some (Emit.transitionStarted n (n + 1)))
      | AKind.eventComplete =>
          ({ st1 with is_running := false }, some Emit.eventCompleted)

/-- The instant at which a task whose body starts executing at `now` wakes
from its sleep: `delay = fire_time - now` is slept through only when
positive (`if delay > 0: await asyncio.sleep(delay)`), so a late task does
not sleep at all and proceeds immediately at `now`. -/
def wakeInstant (now fireTime : Int) : Int :=
  let delay := fireTime - now
  if delay > 0 then now + delay else now

/-- Is task id `i` live (armed, neither cancelled nor finished)? -/
def liveB (st : SchedState) (i : Nat) : Bool :=
  match st.actions[i]? with
  | some a => !a.cancelled && !a.done
  | none => false

/-- The nominal fire instant of task id `i` (0 for an unknown id). -/
def fireTimeOfIdx (st : SchedState) (i : Nat) : Int :=
  ((st.actions[i]?).map SAction.fireTime).getD 0

/-! ## Trace semantics for the asyncio environment -/

/-- An externally observable step: an operator start or stop call, or the
wake-up of an armed task, each at a wall instant. -/
inductive Op where
  | start (t : Int) (arg : Option Int)
  | stop (t : Int)
  | wake (i : Nat) (t : Int)
deriving DecidableEq

def opTime : Op → Int
  | Op.start t _ => t
  | Op.stop t => t
  | Op.wake _ t => t

/-- A timestamped callback emission; `actId` is the id of the task that fired
it (`none` for the start/stop callbacks). -/
structure TraceEmit where
  time : Int
  actId : Option Nat
  emit : Emit
deriving DecidableEq

def stepOp (st : SchedState) (op : Op) : SchedState × List TraceEmit :=
  match op with
  | Op.start t arg =>
    let r := start_event t arg st
    (r.2.1, r.2.2.map (fun e => ⟨t, none, e⟩))
  | Op.stop t =>
    let r := stop_event st
    (r.2.1, r.2.2.map (fun e => ⟨t, none, e⟩))
  | Op.wake i t =>
    let r := fireBody st i
    (r.1, (r.2.map (fun e => (⟨t, some i, e⟩ : TraceEmit))).toList)

def execTrace (st : SchedState) : List Op → SchedState × List TraceEmit
  | [] => (st, [])
  | op :: rest =>
    let r := stepOp st op
    let r2 := execTrace r.1 rest
    (r2.1, r.2 ++ r2.2)

/-- Validity of one step at current trace clock `now`: time is monotone, and
a task may only wake if it is live and its nominal fire instant has passed
(a sleeping task does not run early; a cancelled or finished coroutine never
runs again). -/
def validOpB (now : Int) (st : SchedState) : Op → Bool
  | Op.start t _ => decide (now ≤ t)
  | Op.stop t => decide (now ≤ t)
  | Op.wake i t =>
    liveB st i && decide (now ≤ t) && decide (fireTimeOfIdx st i ≤ t)

def validTraceB (now : Int) (st : SchedState) : List Op → Bool
  | [] => true
  | op :: rest =>
    validOpB now st op && validTraceB (opTime op) (stepOp st op).1 rest

/-! ## Status projection (`get_current_status`, `get_station_timing`) -/

/-- Python `int()`: truncation toward zero. -/
def pyInt (q : ℚ) : Int := if q < 0 then -Int.floor (-q) else Int.floor q

structure Status where
  is_running : Bool
  current_station : Nat
  elapsed_minutes : Int
  remaining_minutes : Int
  start_time : Option Int
  progress_percentage : Option ℚ
deriving DecidableEq

def zeroStatus : Status := ⟨false, 0, 0, 0, none, none⟩

/-- `EventScheduler.get_current_status`, queried at wall instant `now`: the
zeroed shape when not running (or no start time recorded); otherwise the
elapsed/remaining/progress projection with remaining clamped below at zero
and progress clamped above at one hundred. -/
def get_current_status (now : Int) (st : SchedState) : Status :=
  match st.event_start_time with
  | none => zeroStatus
  | some t0 =>
    if !st.is_running then zeroStatus
    else
      let elapsed : ℚ := ((now - t0 : Int) : ℚ)
      let total : ℚ := ((Config.TOTAL_EVENT_DURATION_MINUTES : Int) : ℚ)
      let remaining : ℚ := max 0 (total - elapsed)
      ⟨st.is_running, st.current_station, pyInt elapsed, pyInt remaining, some t0,
        some (min 100 (elapsed / total * 100))⟩

structure StationTiming where
  start_time : Int
  end_time : Int
  transition_end : Option Int
deriving DecidableEq

/-- `EventScheduler.get_station_timing`: the pure clock formula used for
display, `station_start = start + (n-1) * TOTAL_CYCLE_MINUTES`. -/
def get_station_timing (st : SchedState) (station_num : Nat) : Option StationTiming :=
  match st.event_start_time with
  | none => none
  | some t0 =>
    let minutes_offset : Int := ((station_num : Int) - 1) * Config.TOTAL_CYCLE_MINUTES
    let station_start := t0 + minutes_offset
    let station_end := station_start + Config.STATION_DURATION_MINUTES
    some ⟨station_start, station_end,
      if station_num < Config.TOTAL_STATIONS then
        some (station_end + Config.TRANSITION_DURATION_MINUTES)
      else none⟩

/-! ## Station fan-out (`src/handlers/participant.py`)

`sendOk` abstracts the notification channel: whether `bot.send_message`
succeeds for a given recipient. -/

/-- The per-recipient observable effect of `send_station_notification`. -/
structure SendEffect where
  telegram_id : Int
  sent : Bool
  station_updated : Bool
deriving DecidableEq

/-- `send_station_notification`: one `try` block sends the message and then
calls `db.update_participant_station`; a send failure jumps to the `except`
handler, so the directory update runs exactly on the success path, and no
exception escapes to the caller. -/
def send_station_notification (sendOk : Int → Bool) (telegram_id : Int)
    (_station_number : Nat) : SendEffect :=
  if sendOk telegram_id then ⟨telegram_id, true, true⟩
  else ⟨telegram_id, false, false⟩

/-- The loop body of `broadcast_station_to_all`: `sent_count += 1` after
every per-recipient call (which never raises). -/
def broadcastStep (sendOk : Int → Bool) (station_number : Nat)
    (acc : Nat × List SendEffect) (tid : Int) : Nat × List SendEffect :=
  (acc.1 + 1, acc.2 ++ [send_station_notification sendOk tid station_number])

/-- `broadcast_station_to_all`: iterates all active participants, returns the
single integer `sent_count`; the second component is the trace of
per-recipient effects. -/
def broadcast_station_to_all (sendOk : Int → Bool) (participants : List Int)
    (station_number : Nat) : Nat × List SendEffect :=
  participants.foldl (broadcastStep sendOk station_number) (0, [])

/-! ## Derived definitions: fire-instant extractors, concrete states and
traces used by the claims, and the stop coverage invariant -/

/-- Fire instant of the armed station-start task for station `i`. -/
def stationStartFire (st : SchedState) (i : Nat) : Option Int :=
  (st.actions.find? (fun a => decide (a.kind = AKind.stationStart i))).map
    (fun a => a.fireTime)

/-- Fire instant of the armed transition task after station `i`. -/
def transitionFire (st : SchedState) (i : Nat) : Option Int :=
  (st.actions.find? (fun a => decide (a.kind = AKind.transitionStart i))).map
    (fun a => a.fireTime)

/-- Fire instant of the armed completion task. -/
def completeFire (st : SchedState) : Option Int :=
  (st.actions.find? (fun a => decide (a.kind = AKind.eventComplete))).map
    (fun a => a.fireTime)

/-- The state of a run freshly started at instant 0. -/
def startedExample : SchedState := (start_event 0 none initState).2.1

/-- The state after that run is stopped. -/
def stoppedExample : SchedState := (stop_event startedExample).2.1

/-- The adversarial channel for C1: delivery fails exactly for recipient 2. -/
def failSecond : Int → Bool := fun tid => !(tid == 2)

/-- The first armed task of a fresh start. -/
def exampleAct : SAction := ⟨AKind.stationStart 1, 0, false, false⟩

/-- Run 1 started at 0; every task except station 9's (id 16) wakes at its
nominal instant; the completion task (id 17) wakes at 70 and ends the run
while id 16 is still pending. -/
def c3pre : List Op :=
  [Op.start 0 none,
   Op.wake 0 0, Op.wake 1 6, Op.wake 2 8, Op.wake 3 14,
   Op.wake 4 16, Op.wake 5 22, Op.wake 6 24, Op.wake 7 30,
   Op.wake 8 32, Op.wake 9 38, Op.wake 10 40, Op.wake 11 46,
   Op.wake 12 48, Op.wake 13 54, Op.wake 14 56, Op.wake 15 62,
   Op.wake 17 70]

/-- The post-completion state of run 1 with task 16 still pending. -/
def c3s1 : SchedState := (execTrace initState c3pre).1

/-- C3's continuation: a second run starts at 71, and run 1's leftover
station-9 task wakes at 74. -/
def c3full : List Op := c3pre ++ [Op.start 71 none, Op.wake 16 74]

/-- C7's continuation: after the leftover fires, the new run's own station-1
task (id 18) wakes at 75. -/
def c7full : List Op := c3pre ++ [Op.start 71 none, Op.wake 16 74, Op.wake 18 75]

/-- The per-entry transform of the cancellation sweep. -/
def cancelXform (d : List (String × Nat)) (k : Nat) (a : SAction) : SAction :=
  if dictHasB d k && !a.done then { a with cancelled := true } else a

/-- The pre-stop coverage invariant of reachable running states: every live
task is either held in the dict or already past its nominal fire instant. -/
def stopInvFrom (now : Int) (d : List (String × Nat)) : Nat → List SAction → Bool
  | _, [] => true
  | k, a :: rest =>
    (!(!a.cancelled && !a.done) || dictHasB d k || decide (a.fireTime ≤ now)) &&
      stopInvFrom now d (k + 1) rest

def StopInvB (now : Int) (st : SchedState) : Bool :=
  stopInvFrom now st.tasks 0 st.actions

/-! ## The armed timetable of a fresh start -/

set_option maxHeartbeats 12000000 in
/-- The armed timetable after a successful `start_event` at captured instant
`T` from the idle initial state: all 18 tasks are created live, their fire
instants computed up front from `T` alone, accumulated exactly as the arming
loop does. -/
theorem start_actions_eq (T : Int) :
    (start_event T none initState).2.1.actions = [
    ⟨AKind.stationStart 1, T, false, false⟩,
    ⟨AKind.transitionStart 1, T + 6, false, false⟩,
    ⟨AKind.stationStart 2, T + 6 + 2, false, false⟩,
    ⟨AKind.transitionStart 2, T + 6 + 2 + 6, false, false⟩,
    ⟨AKind.stationStart 3, T + 6 + 2 + 6 + 2, false, false⟩,
    ⟨AKind.transitionStart 3, T + 6 + 2 + 6 + 2 + 6, false, false⟩,
    ⟨AKind.stationStart 4, T + 6 + 2 + 6 + 2 + 6 + 2, false, false⟩,
    ⟨AKind.transitionStart 4, T + 6 + 2 + 6 + 2 + 6 + 2 + 6, false, false⟩,
    ⟨AKind.stationStart 5, T + 6 + 2 + 6 + 2 + 6 + 2 + 6 + 2, false, false⟩,
    ⟨AKind.transitionStart 5, T + 6 + 2 + 6 + 2 + 6 + 2 + 6 + 2 + 6, false, false⟩,
    ⟨AKind.stationStart 6, T + 6 + 2 + 6 + 2 + 6 + 2 + 6 + 2 + 6 + 2, false, false⟩,
    ⟨AKind.transitionStart 6, T + 6 + 2 + 6 + 2 + 6 + 2 + 6 + 2 + 6 + 2 + 6, false, false⟩,
    ⟨AKind.stationStart 7, T + 6 + 2 + 6 + 2 + 6 + 2 + 6 + 2 + 6 + 2 + 6 + 2, false, false⟩,
    ⟨AKind.transitionStart 7, T + 6 + 2 + 6 + 2 + 6 + 2 + 6 + 2 + 6 + 2 + 6 + 2 + 6, false, false⟩,
    ⟨AKind.stationStart 8, T + 6 + 2 + 6 + 2 + 6 + 2 + 6 + 2 + 6 + 2 + 6 + 2 + 6 + 2, false, false⟩,
    ⟨AKind.transitionStart 8, T + 6 + 2 + 6 + 2 + 6 + 2 + 6 + 2 + 6 + 2 + 6 + 2 + 6 + 2 + 6, false, false⟩,
    ⟨AKind.stationStart 9, T + 6 + 2 + 6 + 2 + 6 + 2 + 6 + 2 + 6 + 2 + 6 + 2 + 6 + 2 + 6 + 2, false, false⟩,
    ⟨AKind.eventComplete, T + 6 + 2 + 6 + 2 + 6 + 2 + 6 + 2 + 6 + 2 + 6 + 2 + 6 + 2 + 6 + 2 + 6, false, false⟩] := rfl

/-- The scalar fields written by a successful `start_event`: captured start
instant, running flag on, cursor reset to zero. -/
theorem start_fields_eq (T : Int) :
    (start_event T none initState).2.1.event_start_time = some T ∧
      (start_event T none initState).2.1.is_running = true ∧
      (start_event T none initState).2.1.current_station = 0 :=
  ⟨rfl, rfl, rfl⟩

/-! ## Claims C5 and C4: the clock formula -/

/-- C5: the total event duration equals
`N * station_duration + (N-1) * transition_duration` exactly in integer
arithmetic, and with the configured constants `N = 9`,
`station_duration = 6`, `transition_duration = 2` it is 70 minutes. -/
theorem c5_total_duration :
    Config.TOTAL_EVENT_DURATION_MINUTES =
      (Config.TOTAL_STATIONS : Int) * Config.STATION_DURATION_MINUTES +
        ((Config.TOTAL_STATIONS : Int) - 1) * Config.TRANSITION_DURATION_MINUTES ∧
      Config.TOTAL_EVENT_DURATION_MINUTES = 70 ∧
      Config.TOTAL_STATIONS = 9 ∧
      Config.STATION_DURATION_MINUTES = 6 ∧
      Config.TRANSITION_DURATION_MINUTES = 2 :=
  ⟨rfl, by decide, rfl, rfl, rfl⟩

/-- `get_station_timing` computes the display start instant by the pure
offset formula whenever a start instant is recorded. -/
theorem get_station_timing_start (st : SchedState) (t0 : Int)
    (h : st.event_start_time = some t0) (n : Nat) :
    (get_station_timing st n).map StationTiming.start_time
      = some (t0 + ((n : Int) - 1) * Config.TOTAL_CYCLE_MINUTES) := by
  simp [get_station_timing, h]

/-- C4: for a run started at instant `T` (station duration 6, transition 2,
9 stations) the armed fire instants satisfy the closed-form clock formula:
station `i` starts at `T + (i-1)*(6+2)`, the transition after station `i`
fires at its start plus 6, the completion task fires at `T + 70`, and
consecutive stations have no gaps and no overlaps:
`station_start (i+1) = station_end i + transition_duration`; the display
formula `get_station_timing` agrees. -/
theorem c4_schedule_clock_formula (T : Int) (i : Nat) (h1 : 1 ≤ i) (h2 : i ≤ 9) :
    stationStartFire (start_event T none initState).2.1 i
        = some (T + ((i : Int) - 1) * (6 + 2)) ∧
      (i ≤ 8 → transitionFire (start_event T none initState).2.1 i
        = some (T + ((i : Int) - 1) * (6 + 2) + 6)) ∧
      completeFire (start_event T none initState).2.1 = some (T + 70) ∧
      (i < 9 → stationStartFire (start_event T none initState).2.1 (i + 1)
        = some (T + ((i : Int) - 1) * (6 + 2) + 6 + 2)) ∧
      (get_station_timing (start_event T none initState).2.1 i).map StationTiming.start_time
        = some (T + ((i : Int) - 1) * 8) := by
  have ha := start_actions_eq T
  have ht := get_station_timing_start (start_event T none initState).2.1 T
    (start_fields_eq T).1 i
  unfold stationStartFire transitionFire completeFire
  rw [ht, ha]
  interval_cases i <;> simp [List.find?, Config.TOTAL_CYCLE_MINUTES] <;> omega

/-- Witness for C4 at `T = 100`, `i = 3`. -/
theorem c4_schedule_clock_formula_witness :
    (1 ≤ (3 : Nat) ∧ (3 : Nat) ≤ 9) ∧
      (stationStartFire (start_event 100 none initState).2.1 3
          = some (100 + (((3 : Nat) : Int) - 1) * (6 + 2)) ∧
        ((3 : Nat) ≤ 8 → transitionFire (start_event 100 none initState).2.1 3
          = some (100 + (((3 : Nat) : Int) - 1) * (6 + 2) + 6)) ∧
        completeFire (start_event 100 none initState).2.1 = some (100 + 70) ∧
        ((3 : Nat) < 9 → stationStartFire (start_event 100 none initState).2.1 (3 + 1)
          = some (100 + (((3 : Nat) : Int) - 1) * (6 + 2) + 6 + 2)) ∧
        (get_station_timing (start_event 100 none initState).2.1 3).map StationTiming.start_time
          = some (100 + (((3 : Nat) : Int) - 1) * 8)) :=
  ⟨⟨by decide, by decide⟩, c4_schedule_clock_formula 100 3 (by decide) (by decide)⟩

/-! ## Claims C6, C9, C10: rejections and status projection -/

/-- C6: `start_event` while already running returns `False` and leaves the
entire scheduler state unchanged (and emits no callback); `stop_event` while
not running likewise — both rejections have no side effects. -/
theorem c6_reject_no_side_effects (st : SchedState) (now : Int) (arg : Option Int) :
    (st.is_running = true → start_event now arg st = (false, st, [])) ∧
      (st.is_running = false → stop_event st = (false, st, [])) := by
  constructor <;> intro h <;> simp [start_event, stop_event, h]

/-- Witness for C6: a double start on a freshly started run is rejected
unchanged, and a stop on the idle initial state is rejected unchanged. -/
theorem c6_reject_no_side_effects_witness :
    (startedExample.is_running = true ∧
      start_event 5 none startedExample = (false, startedExample, [])) ∧
      (initState.is_running = false ∧ stop_event initState = (false, initState, [])) :=
  ⟨⟨rfl, (c6_reject_no_side_effects startedExample 5 none).1 rfl⟩,
    ⟨rfl, (c6_reject_no_side_effects initState 5 none).2 rfl⟩⟩

/-- C9: whenever the scheduler is not running, `get_current_status` returns
exactly the zeroed shape, regardless of any other state left by a prior run,
and the read does not consult the timer set at all (replacing the task data
does not change the answer). -/
theorem c9_idle_status_zeroed (st : SchedState) (now : Int) (acts : List SAction)
    (tks : List (String × Nat)) (h : st.is_running = false) :
    get_current_status now st = zeroStatus ∧
      get_current_status now { st with actions := acts, tasks := tks }
        = get_current_status now st := by
  cases hs : st.event_start_time <;> simp [get_current_status, hs, h]

/-- Witness for C9 on the state left by a started-then-stopped run. -/
theorem c9_idle_status_zeroed_witness :
    stoppedExample.is_running = false ∧
      (get_current_status 42 stoppedExample = zeroStatus ∧
        get_current_status 42 { stoppedExample with actions := [], tasks := [] }
          = get_current_status 42 stoppedExample) :=
  ⟨rfl, c9_idle_status_zeroed stoppedExample 42 [] [] rfl⟩

/-- `int()` of a nonnegative rational is nonnegative. -/
theorem pyInt_nonneg (q : ℚ) (h : 0 ≤ q) : 0 ≤ pyInt q := by
  unfold pyInt
  rw [if_neg (not_lt.mpr h)]
  exact Int.floor_nonneg.mpr h

/-- C10: for every running status query, whatever the current time relative
to the start instant, `get_current_status` reports
`remaining_minutes ≥ 0` (clamped below at zero) and a progress percentage
that is present and at most 100 (clamped above). -/
theorem c10_running_status_clamped (st : SchedState) (now t0 : Int)
    (hrun : st.is_running = true) (hstart : st.event_start_time = some t0) :
    0 ≤ (get_current_status now st).remaining_minutes ∧
      (get_current_status now st).progress_percentage.isSome = true ∧
      (get_current_status now st).progress_percentage.getD 0 ≤ 100 := by
  simp only [get_current_status, hstart, hrun]
  norm_num
  exact pyInt_nonneg _ (le_max_left _ _)

/-- Witness for C10: a run started at 0 queried at instant 100, past the
70-minute total, still reports clamped values. -/
theorem c10_running_status_clamped_witness :
    (startedExample.is_running = true ∧ startedExample.event_start_time = some 0) ∧
      (0 ≤ (get_current_status 100 startedExample).remaining_minutes ∧
        (get_current_status 100 startedExample).progress_percentage.isSome = true ∧
        (get_current_status 100 startedExample).progress_percentage.getD 0 ≤ 100) :=
  ⟨⟨rfl, rfl⟩, c10_running_status_clamped startedExample 100 0 rfl rfl⟩

/-! ## Claim C1: station fan-out under per-recipient send failure -/

/-- The loop of `broadcast_station_to_all` from any accumulator: one count
increment per recipient — whatever the send outcomes — and the per-recipient
effects appended in order. -/
theorem broadcast_foldl (sendOk : Int → Bool) (n : Nat) (ps : List Int)
    (acc : Nat × List SendEffect) :
    ps.foldl (broadcastStep sendOk n) acc
      = (acc.1 + ps.length,
         acc.2 ++ ps.map (fun tid => send_station_notification sendOk tid n)) := by
  induction ps generalizing acc with
  | nil => simp
  | cons p ps ih =>
    simp only [List.foldl_cons, ih, broadcastStep, List.map_cons, List.length_cons,
      Prod.mk.injEq, List.append_assoc, List.singleton_append]
    exact ⟨by omega, trivial⟩

/-- C1 counterexample: with recipients `[1, 2, 3]` and recipient 2's send
failing, `broadcast_station_to_all` returns the single integer count 3 — not
the pair `(success = 2, failure = 1)` the claim asserts — and the directory
update `update_participant_station` is invoked only for recipients 1 and 3;
it is skipped for recipient 2, whose send failed, contradicting the claim
that the directory update runs for every recipient including failed ones. -/
theorem c1_counterexample :
    (broadcast_station_to_all failSecond [1, 2, 3] 4).1 = 3 ∧
      ((broadcast_station_to_all failSecond [1, 2, 3] 4).2.filter
          (fun e => e.station_updated)).map (fun e => e.telegram_id) = [1, 3] ∧
      ¬ ((broadcast_station_to_all failSecond [1, 2, 3] 4).2.map
          (fun e => e.station_updated) = [true, true, true]) := by decide

/-- C1 amended: the station fan-out visits every recipient, isolating
per-recipient failures (they are swallowed inside
`send_station_notification`), but returns the single count `sent_count`
equal to the number of recipients — failed sends are still counted — and
`update_participant_station` is invoked for exactly the recipients whose
send succeeded: a recipient whose send fails is skipped. -/
theorem c1_amended_broadcast (sendOk : Int → Bool) (ps : List Int) (n : Nat) (tid : Int) :
    (broadcast_station_to_all sendOk ps n).1 = ps.length ∧
      (broadcast_station_to_all sendOk ps n).2
        = ps.map (fun t => send_station_notification sendOk t n) ∧
      (send_station_notification sendOk tid n).sent = sendOk tid ∧
      (send_station_notification sendOk tid n).station_updated = sendOk tid := by
  refine ⟨?_, ?_, ?_, ?_⟩
  · simp [broadcast_station_to_all, broadcast_foldl]
  · simp [broadcast_station_to_all, broadcast_foldl]
  · cases h : sendOk tid <;> simp [send_station_notification, h]
  · cases h : sendOk tid <;> simp [send_station_notification, h]

/-! ## Claim C8: late wake-ups fire immediately, absolute schedule unshifted -/

/-- Re-marking the woken task as finished changes no task's kind or fire
instant. -/
theorem map_kindTime_set_done (l : List SAction) (i : Nat) (a : SAction)
    (h : l[i]? = some a) :
    (l.set i { a with done := true }).map (fun b => (b.kind, b.fireTime))
      = l.map (fun b => (b.kind, b.fireTime)) := by
  induction l generalizing i with
  | nil => simp at h
  | cons x xs ih =>
    cases i with
    | zero =>
      simp only [List.getElem?_cons_zero, Option.some.injEq] at h
      subst h
      simp
    | succ j =>
      simp only [List.getElem?_cons_succ] at h
      simp [ih j h]

/-- When the run is still running, a woken task of any kind emits exactly
its registered callback. -/
theorem fireBody_emit (st : SchedState) (i : Nat) (a : SAction)
    (ha : st.actions[i]? = some a) (hrun : st.is_running = true) :
    (fireBody st i).2 = some (callbackOf a.kind) := by
  cases hk : a.kind <;> simp [fireBody, ha, hrun, hk, callbackOf]

/-- Whatever the running flag and the task's kind, firing task `i` rewrites
the task list only by marking task `i` finished. -/
theorem fireBody_actions (st : SchedState) (i : Nat) (a : SAction)
    (ha : st.actions[i]? = some a) :
    (fireBody st i).1.actions = st.actions.set i { a with done := true } := by
  cases hk : a.kind <;> cases hr : st.is_running <;>
    simp [fireBody, ha, hk, hr]

/-- C8: a timed action whose body runs at or after its nominal fire instant
(computed delay not positive) does not sleep — its wake instant is `now`
itself — and, with the run still running, invokes its callback immediately
with no catch-up skipping; firing only marks that task finished, leaving
every armed task's kind and precomputed absolute fire instant unchanged, so
a late action shifts no later action's already-scheduled instant. -/
theorem c8_late_wake_immediate (st : SchedState) (i : Nat) (a : SAction) (now : Int)
    (ha : st.actions[i]? = some a) (hlate : a.fireTime ≤ now)
    (hrun : st.is_running = true) :
    wakeInstant now a.fireTime = now ∧
      (fireBody st i).2 = some (callbackOf a.kind) ∧
      (fireBody st i).1.actions.map (fun b => (b.kind, b.fireTime))
        = st.actions.map (fun b => (b.kind, b.fireTime)) := by
  have hd : ¬ (a.fireTime - now > 0) := by omega
  refine ⟨by simp [wakeInstant, hd], fireBody_emit st i a ha hrun, ?_⟩
  rw [fireBody_actions st i a ha, map_kindTime_set_done st.actions i a ha]

/-- Witness for C8: station 1's task of a run started at 0, woken late at
instant 5. -/
theorem c8_late_wake_immediate_witness :
    (startedExample.actions[0]? = some exampleAct ∧ exampleAct.fireTime ≤ 5 ∧
      startedExample.is_running = true) ∧
      (wakeInstant 5 exampleAct.fireTime = 5 ∧
        (fireBody startedExample 0).2 = some (callbackOf exampleAct.kind) ∧
        (fireBody startedExample 0).1.actions.map (fun b => (b.kind, b.fireTime))
          = startedExample.actions.map (fun b => (b.kind, b.fireTime))) :=
  ⟨⟨by decide, by decide, rfl⟩,
    c8_late_wake_immediate startedExample 0 exampleAct 5 (by decide) (by decide) rfl⟩

/-! ## Claims C3 and C7: leftover tasks of a prior run

`start_event` contains no cancellation: arming a new run merely overwrites
the name-keyed dict entries.  The traces below exhibit a first run that ends
by natural completion while its station-9 task is still sleeping (its wake
delayed past the completion task's — the delays are computed from separate
wall-clock reads, so a clock adjustment between them skews the sleeps), a
second run started afterwards, and the leftover task then firing during the
second run. -/

/-- C3 counterexample: a valid trace in which `start_event` proceeds while a
timed action armed by the prior run is still pending, does not cancel or
discard it (the action stays live through the new start), and that action
then fires its callback during the new run — `station_started 9` at instant
74 with the new run running. -/
theorem c3_counterexample :
    validTraceB 0 initState c3full = true ∧
      c3s1.is_running = false ∧
      liveB c3s1 16 = true ∧
      fireTimeOfIdx c3s1 16 = 64 ∧
      c3s1.actions.length = 18 ∧
      (start_event 71 none c3s1).1 = true ∧
      liveB (start_event 71 none c3s1).2.1 16 = true ∧
      (⟨74, some 16, Emit.stationStarted 9⟩ : TraceEmit) ∈ (execTrace initState c3full).2 ∧
      (execTrace initState c3full).1.is_running = true := by decide

/-- C7 counterexample: in a valid trace the cursor is written by a timed
action that is not one of the running run's own (run 1's station-9 task,
id 16 < 18, armed before run 2 existed), and decreases from 9 to 1 while the
run is running — refuting both the only-own-actions clause and monotonicity. -/
theorem c7_counterexample :
    validTraceB 0 initState c7full = true ∧
      (execTrace initState (c3pre ++ [Op.start 71 none])).1.current_station = 0 ∧
      (execTrace initState (c3pre ++ [Op.start 71 none, Op.wake 16 74])).1.current_station = 9 ∧
      (execTrace initState (c3pre ++ [Op.start 71 none, Op.wake 16 74])).1.is_running = true ∧
      (execTrace initState c7full).1.current_station = 1 ∧
      (execTrace initState c7full).1.is_running = true := by decide

/-- Creating a task leaves every existing task in place. -/
theorem addAction_getElem (st : SchedState) (nm : String) (k : AKind) (t : Int)
    (i : Nat) (a : SAction) (ha : st.actions[i]? = some a) :
    (addAction st nm k t).actions[i]? = some a := by
  have hi := (List.getElem?_eq_some.mp ha).1
  simpa [addAction, List.getElem?_append_left hi] using ha

/-- The arming loop leaves every existing task in place: it never cancels,
finishes or rewrites one, only appends new ones. -/
theorem scheduleFrom_getElem (fuel : Nat) :
    ∀ (n : Nat) (c : Int) (st : SchedState) (i : Nat) (a : SAction),
      st.actions[i]? = some a → (scheduleFrom fuel n c st).actions[i]? = some a := by
  induction fuel with
  | zero => intro n c st i a ha; exact ha
  | succ f ih =>
    intro n c st i a ha
    unfold scheduleFrom
    split
    · exact ih _ _ _ i a (addAction_getElem _ _ _ _ i a (addAction_getElem _ _ _ _ i a ha))
    · exact addAction_getElem _ _ _ _ i a (addAction_getElem _ _ _ _ i a ha)

/-- `start_event` leaves every previously created task exactly in place —
in particular it cancels nothing. -/
theorem start_event_getElem (st : SchedState) (now : Int) (arg : Option Int)
    (i : Nat) (a : SAction) (ha : st.actions[i]? = some a) :
    (start_event now arg st).2.1.actions[i]? = some a := by
  unfold start_event
  split
  · exact ha
  · exact scheduleFrom_getElem _ _ _ _ i a ha

/-- The arming loop writes no scalar field of the scheduler. -/
theorem scheduleFrom_fields (fuel : Nat) :
    ∀ (n : Nat) (c : Int) (st : SchedState),
      (scheduleFrom fuel n c st).current_station = st.current_station ∧
        (scheduleFrom fuel n c st).is_running = st.is_running ∧
        (scheduleFrom fuel n c st).event_start_time = st.event_start_time := by
  induction fuel with
  | zero => intro n c st; exact ⟨rfl, rfl, rfl⟩
  | succ f ih =>
    intro n c st
    unfold scheduleFrom
    split
    · exact ih _ _ _
    · exact ⟨rfl, rfl, rfl⟩

/-- C3 amended: at most one run runs at a time — `start_event` while running
is rejected with no side effects — but a proceeding `start_event` does not
discard pending actions left by a prior run: it cancels nothing and leaves
every previously created task exactly in place (only the name-keyed dict
entries are overwritten), so a still-live leftover that wakes during the new
run fires its callback, as `c3_counterexample` exhibits. -/
theorem c3_amended_start_no_discard (st : SchedState) (now : Int) (arg : Option Int)
    (i : Nat) (a : SAction) (ha : st.actions[i]? = some a) :
    (st.is_running = true → start_event now arg st = (false, st, [])) ∧
      (start_event now arg st).2.1.actions[i]? = some a :=
  ⟨fun h => by simp [start_event, h], start_event_getElem st now arg i a ha⟩

/-- Witness for the amended C3 on a freshly started run and its first task. -/
theorem c3_amended_start_no_discard_witness :
    startedExample.actions[0]? = some exampleAct ∧
      ((startedExample.is_running = true →
          start_event 5 none startedExample = (false, startedExample, [])) ∧
        (start_event 5 none startedExample).2.1.actions[0]? = some exampleAct) :=
  ⟨by decide, c3_amended_start_no_discard startedExample 5 none 0 exampleAct (by decide)⟩

/-- The cursor update a woken task performs: the station number for a
running station-start task, otherwise no change. -/
theorem fireBody_cursor (st : SchedState) (i : Nat) (a : SAction)
    (ha : st.actions[i]? = some a) :
    (fireBody st i).1.current_station
      = if st.is_running then
          (match a.kind with
           | AKind.stationStart n => n
           | _ => st.current_station)
        else st.current_station := by
  cases hk : a.kind <;> cases hr : st.is_running <;> simp [fireBody, ha, hk, hr]

/-- `start_event`, when it proceeds, resets the cursor to 0. -/
theorem start_event_success_cursor (st : SchedState) (now : Int) (arg : Option Int) :
    (start_event now arg st).1 = true → (start_event now arg st).2.1.current_station = 0 := by
  unfold start_event
  split
  · intro h; cases h
  · intro _; exact (scheduleFrom_fields _ _ _ _).1

/-- C7 amended: the cursor is 0 immediately after a successful start; a
firing StationStart task sets it to that station's number, a firing
TransitionStart or completion task and `stop_event` leave it unchanged, and
a task that wakes with the run not running writes nothing; across a firing
whose station number is at least the current cursor it is nondecreasing —
but it is not written only by the running run's own actions and is not
monotone in general, because a leftover task of a prior run can fire during
a new run (`c7_counterexample`). -/
theorem c7_amended_cursor_discipline (st : SchedState) (now : Int) (arg : Option Int)
    (i : Nat) (a : SAction) (ha : st.actions[i]? = some a) :
    ((start_event now arg st).1 = true → (start_event now arg st).2.1.current_station = 0) ∧
      (stop_event st).2.1.current_station = st.current_station ∧
      (st.is_running = false → (fireBody st i).1.current_station = st.current_station) ∧
      (st.is_running = true → ∀ n, a.kind = AKind.stationStart n →
        (fireBody st i).1.current_station = n) ∧
      (st.is_running = true → ∀ n, a.kind = AKind.transitionStart n →
        (fireBody st i).1.current_station = st.current_station) ∧
      (st.is_running = true → a.kind = AKind.eventComplete →
        (fireBody st i).1.current_station = st.current_station) ∧
      (st.is_running = true →
        (∀ n, a.kind = AKind.stationStart n → st.current_station ≤ n) →
        st.current_station ≤ (fireBody st i).1.current_station) := by
  refine ⟨start_event_success_cursor st now arg, ?_, ?_, ?_, ?_, ?_, ?_⟩
  · cases hr : st.is_running <;> simp [stop_event, hr]
  · intro hr; simp [fireBody_cursor st i a ha, hr]
  · intro hr n hk; simp [fireBody_cursor st i a ha, hr, hk]
  · intro hr n hk; simp [fireBody_cursor st i a ha, hr, hk]
  · intro hr hk; simp [fireBody_cursor st i a ha, hr, hk]
  · intro hr hmono
    rw [fireBody_cursor st i a ha, if_pos hr]
    cases hk : a.kind with
    | stationStart n => exact hmono n hk
    | transitionStart n => exact le_refl _
    | eventComplete => exact le_refl _

/-- Witness for the amended C7 on a freshly started run and its first task
(a StationStart task for station 1). -/
theorem c7_amended_cursor_discipline_witness :
    startedExample.actions[0]? = some exampleAct ∧
      (((start_event 5 none startedExample).1 = true →
          (start_event 5 none startedExample).2.1.current_station = 0) ∧
        (stop_event startedExample).2.1.current_station = startedExample.current_station ∧
        (startedExample.is_running = false →
          (fireBody startedExample 0).1.current_station = startedExample.current_station) ∧
        (startedExample.is_running = true → ∀ n, exampleAct.kind = AKind.stationStart n →
          (fireBody startedExample 0).1.current_station = n) ∧
        (startedExample.is_running = true → ∀ n, exampleAct.kind = AKind.transitionStart n →
          (fireBody startedExample 0).1.current_station = startedExample.current_station) ∧
        (startedExample.is_running = true → exampleAct.kind = AKind.eventComplete →
          (fireBody startedExample 0).1.current_station = startedExample.current_station) ∧
        (startedExample.is_running = true →
          (∀ n, exampleAct.kind = AKind.stationStart n → startedExample.current_station ≤ n) →
          startedExample.current_station ≤ (fireBody startedExample 0).1.current_station)) :=
  ⟨by decide, c7_amended_cursor_discipline startedExample 5 none 0 exampleAct (by decide)⟩

/-! ## Claim C2: stop suppresses all later-firing callbacks -/

/-- The sweep rewrites each entry pointwise by `cancelXform` at its index. -/
theorem cancelFrom_getElem (d : List (String × Nat)) :
    ∀ (l : List SAction) (k i : Nat),
      (cancelFrom d k l)[i]? = (l[i]?).map (cancelXform d (k + i)) := by
  intro l
  induction l with
  | nil => intro k i; simp [cancelFrom]
  | cons x xs ih =>
    intro k i
    cases i with
    | zero => simp [cancelFrom, cancelXform]
    | succ j =>
      have harith : k + (j + 1) = (k + 1) + j := by omega
      simp only [cancelFrom, List.getElem?_cons_succ, harith, ih (k + 1) j]

/-- An entry that was already cancelled or finished, or whose id the dict
holds, is not live after the sweep. -/
theorem cancelXform_dead (d : List (String × Nat)) (k : Nat) (a : SAction)
    (h : a.cancelled = true ∨ a.done = true ∨ dictHasB d k = true) :
    (cancelXform d k a).cancelled = true ∨ (cancelXform d k a).done = true := by
  unfold cancelXform
  split
  · left; rfl
  · rename_i hc
    rcases h with h | h | h
    · left; exact h
    · right; exact h
    · right
      cases hd : a.done
      · exact absurd (by simp [h, hd]) hc
      · rfl

/-- Unpacking the coverage invariant at one live entry. -/
theorem stopInvFrom_getElem (now : Int) (d : List (String × Nat)) :
    ∀ (l : List SAction) (k i : Nat) (a : SAction),
      stopInvFrom now d k l = true → l[i]? = some a →
      a.cancelled = false → a.done = false →
      dictHasB d (k + i) = true ∨ a.fireTime ≤ now := by
  intro l
  induction l with
  | nil => intro k i a h ha; simp at ha
  | cons x xs ih =>
    intro k i a h ha
    rw [stopInvFrom, Bool.and_eq_true] at h
    cases i with
    | zero =>
      simp only [List.getElem?_cons_zero, Option.some.injEq] at ha
      subst ha
      intro hc hd
      simp only [hc, hd, Bool.not_false, Bool.and_self, Bool.not_true, Bool.false_or,
        Bool.or_eq_true, decide_eq_true_eq] at h
      simpa using h.1
    | succ j =>
      intro hc hd
      have harith : k + (j + 1) = (k + 1) + j := by omega
      rw [harith]
      exact ih (k + 1) j a h.2 (by simpa using ha) hc hd

/-- A task known dead makes `liveB` false. -/
theorem liveB_false_of_dead (st : SchedState) (i : Nat) (a : SAction)
    (ha : st.actions[i]? = some a) (h : a.cancelled = true ∨ a.done = true) :
    liveB st i = false := by
  unfold liveB
  rw [ha]
  rcases h with h | h <;> simp [h]

/-- A live task's flags are both off. -/
theorem flags_of_liveB (st : SchedState) (i : Nat) (a : SAction)
    (ha : st.actions[i]? = some a) (h : liveB st i = true) :
    a.cancelled = false ∧ a.done = false := by
  unfold liveB at h
  rw [ha] at h
  simpa using h

/-- One valid step can neither revive a cancelled-or-finished task (asyncio
never resurrects a coroutine) nor produce an emission tagged with it. -/
theorem dead_stays (st : SchedState) (op : Op) (now : Int) (i : Nat) (a : SAction)
    (ha : st.actions[i]? = some a) (hdead : a.cancelled = true ∨ a.done = true)
    (hv : validOpB now st op = true) :
    (∃ b, (stepOp st op).1.actions[i]? = some b ∧ (b.cancelled = true ∨ b.done = true)) ∧
      ∀ te ∈ (stepOp st op).2, te.actId ≠ some i := by
  cases op with
  | start t arg =>
    refine ⟨⟨a, start_event_getElem st t arg i a ha, hdead⟩, ?_⟩
    intro te hte
    simp only [stepOp, List.mem_map] at hte
    obtain ⟨e, _, rfl⟩ := hte
    simp
  | stop t =>
    by_cases hr : st.is_running
    · constructor
      · refine ⟨cancelXform st.tasks i a, ?_, ?_⟩
        · simp [stepOp, stop_event, hr, cancelFrom_getElem st.tasks st.actions 0 i, ha]
        · exact cancelXform_dead st.tasks i a (Or.elim hdead Or.inl (fun h => Or.inr (Or.inl h)))
      · intro te hte
        simp only [stepOp, stop_event, hr, Bool.not_true, Bool.false_eq_true, if_false,
          List.mem_map] at hte
        obtain ⟨e, _, rfl⟩ := hte
        simp
    · have hrr : st.is_running = false := by simpa using hr
      refine ⟨⟨a, ?_, hdead⟩, ?_⟩
      · simp [stepOp, stop_event, hrr, ha]
      · intro te hte
        simp [stepOp, stop_event, hrr] at hte
  | wake j t =>
    simp only [validOpB, Bool.and_eq_true, decide_eq_true_eq] at hv
    have hvj : liveB st j = true := hv.1.1
    have hj : ∃ b, st.actions[j]? = some b := by
      unfold liveB at hvj
      cases hb : st.actions[j]? with
      | none => rw [hb] at hvj; cases hvj
      | some b => exact ⟨b, rfl⟩
    obtain ⟨b, hb⟩ := hj
    have hij : j ≠ i := by
      intro h
      subst h
      rw [liveB_false_of_dead st j a ha hdead] at hvj
      cases hvj
    constructor
    · refine ⟨a, ?_, hdead⟩
      have := fireBody_actions st j b hb
      simp only [stepOp, this, List.getElem?_set_ne hij, ha]
    · intro te hte
      simp only [stepOp] at hte
      cases hfb : (fireBody st j).2 with
      | none => rw [hfb] at hte; simp at hte
      | some e =>
        rw [hfb] at hte
        simp at hte
        subst hte
        simp [hij]

/-- Along any valid trace, a task that is cancelled or finished at its start
never produces an emission: its callback never runs again. -/
theorem dead_no_emit (ops : List Op) :
    ∀ (st : SchedState) (now : Int) (i : Nat),
      (∃ a, st.actions[i]? = some a ∧ (a.cancelled = true ∨ a.done = true)) →
      validTraceB now st ops = true →
      ∀ te ∈ (execTrace st ops).2, te.actId ≠ some i := by
  induction ops with
  | nil =>
    intro st now i _ _ te hte
    simp [execTrace] at hte
  | cons op rest ih =>
    intro st now i hdead hv te hte
    rw [validTraceB, Bool.and_eq_true] at hv
    obtain ⟨a, ha, hda⟩ := hdead
    have hstep := dead_stays st op now i a ha hda hv.1
    simp only [execTrace, List.mem_append] at hte
    cases hte with
    | inl h => exact hstep.2 te h
    | inr h => exact ih (stepOp st op).1 (opTime op) i hstep.1 hv.2 te h

/-- A non-live task with an entry is cancelled or finished. -/
theorem dead_of_liveB_false (st : SchedState) (i : Nat) (a : SAction)
    (ha : st.actions[i]? = some a) (h : liveB st i = false) :
    a.cancelled = true ∨ a.done = true := by
  unfold liveB at h
  rw [ha] at h
  by_cases hc : a.cancelled = true
  · exact Or.inl hc
  · by_cases hd : a.done = true
    · exact Or.inr hd
    · rw [Bool.not_eq_true] at hc hd
      simp [hc, hd] at h

/-- C2: `stop_event` on a running scheduler returns true with the running
flag off (the flag is written before the sweep in the source, so in-flight
bodies that run after it observe not-running), cancels every still-pending
task held in the pending dict, and empties the dict; and afterwards no task
that existed at the stop and whose nominal fire instant lies after the stop
instant ever emits its callback in any valid continuation — under the
coverage invariant of reachable states that every live task is either in the
dict or already past its fire instant. -/
theorem c2_stop_suppresses (st : SchedState) (now : Int)
    (hrun : st.is_running = true) (hinv : StopInvB now st = true) :
    (stop_event st).1 = true ∧
      (stop_event st).2.1.is_running = false ∧
      (stop_event st).2.1.tasks = [] ∧
      (∀ i, dictHasB st.tasks i = true → liveB (stop_event st).2.1 i = false) ∧
      (∀ i a, st.actions[i]? = some a → now < a.fireTime →
        ∀ ops, validTraceB now (stop_event st).2.1 ops = true →
          ∀ te ∈ (execTrace (stop_event st).2.1 ops).2, te.actId ≠ some i) := by
  refine ⟨by simp [stop_event, hrun], by simp [stop_event, hrun],
    by simp [stop_event, hrun], ?_, ?_⟩
  · intro i hdict
    cases hai : st.actions[i]? with
    | none =>
      unfold liveB
      have hpost : (stop_event st).2.1.actions[i]? = none := by
        simp [stop_event, hrun, cancelFrom_getElem st.tasks st.actions 0 i, hai]
      rw [hpost]
    | some a =>
      have hpost : (stop_event st).2.1.actions[i]? = some (cancelXform st.tasks i a) := by
        simp [stop_event, hrun, cancelFrom_getElem st.tasks st.actions 0 i, hai]
      exact liveB_false_of_dead _ i _ hpost
        (cancelXform_dead st.tasks i a (Or.inr (Or.inr hdict)))
  · intro i a ha hfire ops hv te hte
    have hdead : (cancelXform st.tasks i a).cancelled = true ∨
        (cancelXform st.tasks i a).done = true := by
      by_cases hlive : liveB st i = true
      · obtain ⟨hc, hd⟩ := flags_of_liveB st i a ha hlive
        have hcov := stopInvFrom_getElem now st.tasks st.actions 0 i a hinv ha hc hd
        rw [Nat.zero_add] at hcov
        rcases hcov with h | h
        · exact cancelXform_dead st.tasks i a (Or.inr (Or.inr h))
        · exact absurd h (not_le.mpr hfire)
      · exact cancelXform_dead st.tasks i a
          (Or.elim (dead_of_liveB_false st i a ha (by simpa using hlive)) Or.inl
            (fun h => Or.inr (Or.inl h)))
    have hpost : (stop_event st).2.1.actions[i]? = some (cancelXform st.tasks i a) := by
      simp [stop_event, hrun, cancelFrom_getElem st.tasks st.actions 0 i, ha]
    exact dead_no_emit ops (stop_event st).2.1 now i ⟨_, hpost, hdead⟩ hv te hte

/-- Witness for C2: stopping the freshly started run at instant 1; the
coverage invariant holds there and every armed task fires later than 1
except station 1's. -/
theorem c2_stop_suppresses_witness :
    (startedExample.is_running = true ∧ StopInvB 1 startedExample = true) ∧
      ((stop_event startedExample).1 = true ∧
        (stop_event startedExample).2.1.is_running = false ∧
        (stop_event startedExample).2.1.tasks = [] ∧
        (∀ i, dictHasB startedExample.tasks i = true →
          liveB (stop_event startedExample).2.1 i = false) ∧
        (∀ i a, startedExample.actions[i]? = some a → 1 < a.fireTime →
          ∀ ops, validTraceB 1 (stop_event startedExample).2.1 ops = true →
            ∀ te ∈ (execTrace (stop_event startedExample).2.1 ops).2,
              te.actId ≠ some i)) :=
  ⟨⟨rfl, by decide⟩, c2_stop_suppresses startedExample 1 rfl (by decide)⟩
